import Mathlib

set_option synthInstance.maxSize 512

/-!
Verification development for the evaluation CLI of the
`text-correction-benchmarks` repository
(`src/text_correction_benchmarks/cli/evaluate.py`).

The Python code is shallowly embedded as follows:
* Python strings are Lean `String`; string manipulation is done through the
  underlying character list (`String.data`) with structurally recursive
  helpers, so every definition evaluates inside the kernel.
* The file system is an explicit map `String → Option (List String)` from a
  path to the list of lines of the file at that path (the external
  `load_text_file` collaborator strips trailing newlines, so a file is just
  its list of lines).
* Python floats are modelled as rationals (`ℚ`); `f"{x:.2f}"`-style
  formatting is modelled by `formatFixed`, using round-half-to-even as
  Python float formatting does.
* Fallible Python code returns `Except PyError`; `assert`, `raise
  RuntimeError`, `raise TypeError`, attribute errors and `int()` parse
  errors are the error cases the embedded code can take.
* The metric functions of the external `text_correction_utils.metrics`
  library are not part of this repository; they are modelled from the
  specification (each such definition carries a `Modelled from the spec:`
  doc comment).
-/

/-- The error conditions the embedded Python code can raise. -/
inductive PyError where
  | fileNotFound (path : String)
  | typeError (msg : String)
  | assertionError (msg : String)
  | valueError (msg : String)
  | runtimeError (msg : String)
  | attributeError (attr : String)
deriving DecidableEq

/-- `str(e)` for the modelled errors: the message a Python exception prints,
used when `run` wraps an evaluation failure into a `RuntimeError`. -/
def errStr : PyError → String
  | .fileNotFound p => "file " ++ p ++ " not found"
  | .typeError m => m
  | .assertionError m => m
  | .valueError m => m
  | .runtimeError m => m
  | .attributeError a =>
      "\x27Namespace\x27 object has no attribute \x27" ++ a ++ "\x27"

/-! ## String helpers (structural, kernel-computable) -/

/-- Split a character list at every occurrence of the separator, keeping
empty segments — the behaviour of Python `str.split(sep)` with an explicit
separator. -/
def splitSep (sep : Char) : List Char → List (List Char)
  | [] => [[]]
  | c :: rest =>
    let r := splitSep sep rest
    if c = sep then [] :: r
    else
      match r with
      | [] => [[c]]
      | h :: t => (c :: h) :: t

/-- The maximal whitespace-free runs of a character list, in order: the
groups Python `str.split()` (no argument) produces. -/
def wsGroups : List Char → List (List Char)
  | [] => []
  | c :: rest =>
    let gs := wsGroups rest
    if c.isWhitespace then gs
    else
      match rest with
      | [] => [[c]]
      | d :: _ =>
        if d.isWhitespace then [c] :: gs
        else
          match gs with
          | [] => [[c]]
          | g :: t => (c :: g) :: t

/-- Python `str.split()` with no argument: split on runs of whitespace and
drop empty strings. -/
def pySplit (s : String) : List String := (wsGroups s.data).map String.mk

/-- Python `str.lower()` (restricted to the ASCII case folding of
`Char.toLower`; the benchmark data relevant here is ASCII). -/
def pyLower (s : String) : String := String.mk (s.data.map Char.toLower)

/-- Python `str.strip()` with no argument: remove leading and trailing
whitespace. -/
def pyStrip (s : String) : String :=
  String.mk
    (((s.data.dropWhile Char.isWhitespace).reverse.dropWhile
        Char.isWhitespace).reverse)

/-- Python `str.rstrip("/")`: remove trailing slashes. -/
def rstripSlash (s : String) : String :=
  String.mk ((s.data.reverse.dropWhile (fun c => c = '/')).reverse)

/-- `os.path.join a b` for a relative `b`: `a ++ "/" ++ b`. -/
def joinPath (a b : String) : String := a ++ "/" ++ b

/-- `os.path.splitext(os.path.split(path)[-1])[0]`: the base name of a path
without its extension (for the simple file names this tool manipulates). -/
def basenameNoExt (path : String) : String :=
  let base := (splitSep '/' path.data).getLastD []
  let parts := splitSep '.' base
  match parts with
  | [] => String.mk base
  | [_] => String.mk base
  | _ => String.mk (List.intercalate ['.'] parts.dropLast)

/-- The digits of a character list, read as a base-10 natural number
(assuming `·.isDigit` for every character). -/
def digitsToNat (cs : List Char) : ℕ :=
  cs.foldl (fun acc c => 10 * acc + (c.toNat - 48)) 0

/-- The Python builtin `int(s)` on a decimal string literal: optional
surrounding whitespace, an optional sign, then at least one digit;
anything else raises `ValueError`. -/
def pyInt (s : String) : Except PyError ℤ :=
  let t := (pyStrip s).data
  let signDigits : ℤ × List Char :=
    match t with
    | '-' :: rest => (-1, rest)
    | '+' :: rest => (1, rest)
    | _ => (1, t)
  if signDigits.2.length ≠ 0 ∧ signDigits.2.all Char.isDigit then
    .ok (signDigits.1 * (digitsToNat signDigits.2 : ℤ))
  else
    .error (.valueError ("invalid literal for int() with base 10: " ++ s))

/-- Modelled from the spec: the external sequence loader
`text_correction_utils.io.load_text_file` — `load(path)` yields the ordered
list of lines of the file, failing with a file-not-found condition on an
invalid path. The file system is the explicit map `fs`. -/
def load_text_file (fs : String → Option (List String)) (path : String) :
    Except PyError (List String) :=
  match fs path with
  | some lines => .ok lines
  | none => .error (.fileNotFound path)

/-! ## Rational helpers: guarded precision / recall / F1 and formatting -/

/-- Precision from raw counts; a zero denominator yields 0. -/
def precisionOf (tp fp : ℕ) : ℚ :=
  if tp + fp = 0 then 0 else (tp : ℚ) / ((tp : ℚ) + (fp : ℚ))

/-- Recall from raw counts; a zero denominator yields 0. -/
def recallOf (tp fn : ℕ) : ℚ :=
  if tp + fn = 0 then 0 else (tp : ℚ) / ((tp : ℚ) + (fn : ℚ))

/-- F1 from precision and recall; a zero denominator yields 0. -/
def f1Of (p r : ℚ) : ℚ :=
  if p + r = 0 then 0 else 2 * p * r / (p + r)

/-- Arithmetic mean of a list of rationals; 0 on the empty list. -/
def meanQ (qs : List ℚ) : ℚ :=
  if qs.length = 0 then 0 else qs.sum / (qs.length : ℚ)

/-- Round to the nearest integer, ties to even (the rounding Python float
formatting applies). -/
def roundHalfToEven (q : ℚ) : ℤ :=
  let fl := ⌊q⌋
  let frac := q - (fl : ℚ)
  if frac < 1 / 2 then fl
  else if 1 / 2 < frac then fl + 1
  else if fl % 2 = 0 then fl else fl + 1

/-- Left-pad a string with zeros to the given length. -/
def padLeftZeros (s : String) (n : ℕ) : String :=
  String.mk (List.replicate (n - s.data.length) '0') ++ s

/-- Python `f"{q:.d}"` fixed-point formatting of a rational with `d` digits
after the decimal point. -/
def formatFixed (q : ℚ) (d : ℕ) : String :=
  let scaled := roundHalfToEven (q * ((10 : ℚ) ^ d))
  let sign := if scaled < 0 then "-" else ""
  let a := scaled.natAbs
  if d = 0 then sign ++ toString (a : ℕ)
  else
    sign ++ toString (a / 10 ^ d) ++ "." ++
      padLeftZeros (toString (a % 10 ^ d)) d

/-! ## Alignment and edit classification (spec §4.1)

Modelled from the spec: the Alignment & Edit Classifier of the external
`text_correction_utils.metrics` library is not part of this repository.
Following §4.1, edits are derived from a minimum-edit-distance alignment of
the corrupted sequence with a target sequence; an edit exists at every
alignment position where the aligned unit differs, and is identified by
`(position, kind, before, after)`. The precise tie-break (left open by the
spec) is: prefer substitution, then deletion, then insertion. -/

/-- The kind of an atomic edit. -/
inductive EditKind where
  | sub
  | ins
  | del
deriving DecidableEq

/-- An atomic edit: `(position, kind, before, after)` (spec §3). -/
structure Edit (α : Type) where
  pos : ℕ
  kind : EditKind
  before : Option α
  after : Option α
deriving DecidableEq

/-- Minimum-edit-distance alignment with explicit fuel (the fuel makes the
recursion structural; `alignEdits` supplies enough fuel for it never to run
out). Returns the edit distance together with the list of edits, positions
relative to the corrupted sequence starting at `pos`. -/
def alignEditsAux {α : Type} [DecidableEq α] :
    ℕ → ℕ → List α → List α → ℕ × List (Edit α)
  | _, _, [], [] => (0, [])
  | fuel + 1, pos, [], b :: bs =>
    let r := alignEditsAux fuel pos [] bs
    (r.1 + 1, ⟨pos, .ins, none, some b⟩ :: r.2)
  | fuel + 1, pos, a :: as, [] =>
    let r := alignEditsAux fuel (pos + 1) as []
    (r.1 + 1, ⟨pos, .del, some a, none⟩ :: r.2)
  | fuel + 1, pos, a :: as, b :: bs =>
    if a = b then alignEditsAux fuel (pos + 1) as bs
    else
      let s := alignEditsAux fuel (pos + 1) as bs
      let d := alignEditsAux fuel (pos + 1) as (b :: bs)
      let i := alignEditsAux fuel pos (a :: as) bs
      if s.1 ≤ d.1 ∧ s.1 ≤ i.1 then
        (s.1 + 1, ⟨pos, .sub, some a, some b⟩ :: s.2)
      else if d.1 ≤ i.1 then (d.1 + 1, ⟨pos, .del, some a, none⟩ :: d.2)
      else (i.1 + 1, ⟨pos, .ins, none, some b⟩ :: i.2)
  | 0, _, _, _ => (0, [])

/-- The edit-distance alignment of a corrupted sequence with a target. -/
def alignEdits {α : Type} [DecidableEq α] (c t : List α) :
    ℕ × List (Edit α) :=
  alignEditsAux (c.length + t.length) 0 c t

/-- Edits within a set are unique by position; a later edit at a duplicate
position overwrites an earlier one during extraction (spec §3). -/
def dedupByPos {α : Type} (edits : List (Edit α)) : List (Edit α) :=
  edits.foldl (fun acc e => acc.filter (fun x => x.pos ≠ e.pos) ++ [e]) []

/-- The edit set separating a corrupted sequence from a target (spec §3). -/
def editSet {α : Type} [DecidableEq α] (c t : List α) : List (Edit α) :=
  dedupByPos (alignEdits c t).2

/-- `(tp, fp, fn)` for one sequence triple: predicted edits matching a
reference edit, predicted edits matching none, reference edits unmatched
(spec §4.1). -/
def tripleCounts {α : Type} [DecidableEq α] (c p g : List α) : ℕ × ℕ × ℕ :=
  let pe := editSet c p
  let re := editSet c g
  (pe.countP (fun e => decide (e ∈ re)),
   pe.countP (fun e => decide (e ∉ re)),
   re.countP (fun e => decide (e ∉ pe)))

/-- `(F1, precision, recall)` from raw `(tp, fp, fn)` counts. -/
def countsF1 (c : ℕ × ℕ × ℕ) : ℚ × ℚ × ℚ :=
  let p := precisionOf c.1 c.2.1
  let r := recallOf c.1 c.2.2
  (f1Of p r, p, r)

/-- Modelled from the spec: the shared aggregation of the two edit-level F1
metrics (§4.2) over a corpus of unit-sequence triples. Micro: sum
`tp`/`fp`/`fn` across the corpus, then one F1. Sequence-averaged: F1 per
triple (zero-denominator guarded), then the arithmetic mean. -/
def editSetF1 {α : Type} [DecidableEq α]
    (triples : List (List α × List α × List α)) (sequence_averaged : Bool) :
    ℚ × ℚ × ℚ :=
  if sequence_averaged then
    let per := triples.map (fun t => countsF1 (tripleCounts t.1 t.2.1 t.2.2))
    (meanQ (per.map (fun x => x.1)),
     meanQ (per.map (fun x => x.2.1)),
     meanQ (per.map (fun x => x.2.2)))
  else
    let cs := triples.map (fun t => tripleCounts t.1 t.2.1 t.2.2)
    countsF1 ((cs.map (fun x => x.1)).sum,
              (cs.map (fun x => x.2.1)).sum,
              (cs.map (fun x => x.2.2)).sum)

/-- Modelled from the spec: `metrics.spelling_correction_f1` of the external
library — edit-level F1 at word granularity (whitespace-delimited words,
§4.1/§4.2), returning `(F1, precision, recall)`. -/
def spelling_correction_f1 (corrupted predictions groundtruths : List String)
    (sequence_averaged : Bool) : ℚ × ℚ × ℚ :=
  editSetF1
    ((corrupted.zip (predictions.zip groundtruths)).map
      (fun t => (pySplit t.1, pySplit t.2.1, pySplit t.2.2)))
    sequence_averaged

/-- Modelled from the spec: `metrics.whitespace_correction_f1` of the
external library — the same aggregation as `spelling_correction_f1` at
character granularity (§4.2). -/
def whitespace_correction_f1 (corrupted predictions groundtruths : List String)
    (sequence_averaged : Bool) : ℚ × ℚ × ℚ :=
  editSetF1
    ((corrupted.zip (predictions.zip groundtruths)).map
      (fun t => (t.1.data, t.2.1.data, t.2.2.data)))
    sequence_averaged

/-- Modelled from the spec: `metrics.binary_f1` of the external library —
standard F1 over positionally paired binary predictions and labels,
zero denominators giving 0; returns `(F1, precision, recall)`. -/
def binary_f1 (predictions labels : List Bool) : ℚ × ℚ × ℚ :=
  let pairs := predictions.zip labels
  let tp := pairs.countP (fun q => q.1 && q.2)
  let fp := pairs.countP (fun q => q.1 && !q.2)
  let fn := pairs.countP (fun q => !q.1 && q.2)
  countsF1 (tp, fp, fn)

/-- Modelled from the spec: `metrics.accuracy` of the external library —
exact-match accuracy over positionally paired items, 0 on empty input. -/
def accuracy {α : Type} [DecidableEq α] (predictions targets : List α) : ℚ :=
  if predictions.length = 0 then 0
  else
    ((predictions.zip targets).countP (fun q => decide (q.1 = q.2)) : ℚ) /
      (predictions.length : ℚ)

/-- Character-level edit distance of two strings (via the alignment). -/
def editDistance (a b : String) : ℕ := (alignEdits a.data b.data).1

/-- Normalized edit distance of one line: distance divided by the
ground-truth length; for an empty ground truth the line contributes 0 if the
prediction is also empty, else the maximal penalty 1 (spec §4.2 policy). -/
def normED (p g : String) : ℚ :=
  if g.data.length = 0 then (if p.data.length = 0 then 0 else 1)
  else (editDistance p g : ℚ) / (g.data.length : ℚ)

/-- Modelled from the spec:
`metrics.mean_normalized_sequence_edit_distance` of the external library —
the mean over all lines of the normalized character edit distance between
prediction and ground truth. -/
def mean_normalized_sequence_edit_distance
    (predictions groundtruths : List String) : ℚ :=
  meanQ ((predictions.zip groundtruths).map (fun q => normED q.1 q.2))

/-! ## The string order used by Python `sorted` on metric names

Python sorts strings lexicographically by Unicode code point; the
structurally recursive `strLeb` below is that order. -/

/-- Lexicographic code-point order on character lists. -/
def listCharLeb : List Char → List Char → Bool
  | [], _ => true
  | _ :: _, [] => false
  | a :: as, b :: bs =>
    if a.toNat < b.toNat then true
    else if b.toNat < a.toNat then false
    else listCharLeb as bs

/-- Lexicographic code-point order on strings (the order Python `sorted`
uses on metric names). -/
def strLe (a b : String) : Prop := listCharLeb a.data b.data = true

instance : DecidableRel strLe := fun a b => by unfold strLe; infer_instance

/-! ## `evaluate` (evaluate.py, lines 62–167) -/

/-- One Metric Result as returned by `evaluate`:
`(display_name, formatted_value, raw_value, higher_is_better)`. -/
abbrev MetricResult := String × String × ℚ × Bool

/-- The `lowercase` argument of `evaluate`: `Union[bool, str]`. -/
inductive LowercaseArg where
  | bool (b : Bool)
  | str (path : String)
deriving DecidableEq

/-- The list comprehension `[bool(int(lower)) for lower in lines]`:
parse each line as an integer and take its truth value, propagating the
first `ValueError`. -/
def parseFlags : List String → Except PyError (List Bool)
  | [] => .ok []
  | l :: rest =>
    match pyInt l with
    | .error e => .error e
    | .ok i =>
      match parseFlags rest with
      | .error e => .error e
      | .ok r => .ok (decide (i ≠ 0) :: r)

/-- Lines 72–84 of evaluate.py: resolve the lowercase policy to one boolean
per prediction line — from a companion flag file when `lowercase` is a
string, uniformly when it is a boolean. -/
def resolveLowercase (fs : String → Option (List String))
    (lowercase : LowercaseArg) (predictions : List String) :
    Except PyError (List Bool) :=
  match lowercase with
  | .str path =>
    match load_text_file fs path with
    | .error e => .error e
    | .ok lines => parseFlags lines
  | .bool b => .ok (List.replicate predictions.length b)

/-- Lines 89–92 of evaluate.py: lowercase exactly the prediction lines whose
resolved flag is true. -/
def applyLowercase (predictions : List String) (flags : List Bool) :
    List String :=
  (predictions.zip flags).map (fun q => if q.2 then pyLower q.1 else q.1)

/-- The assertion message of lines 86–87 of evaluate.py. -/
def lengthMismatchMsg : String :=
  "expected the same number of lines in the groundtruth, prediction, corrupted, and lowercase files"

/-- The display name of the two rows an edit-level F1 metric emits. -/
def f1RowName (seq_avg : Bool) : String :=
  if seq_avg then "Sequence-averaged F1" else "Micro F1"

/-- The supported metric names (evaluate.py, lines 97–165). -/
def supportedMetricNames : List String :=
  ["bin_f1", "word_acc", "seq_acc", "mned", "sec_f1", "wsc_f1"]

/-- One iteration of the metric loop of evaluate.py (lines 96–165): the
Metric Result rows appended for one requested name, or the error that
iteration raises. -/
def metricRows (corrupted predictions groundtruths : List String)
    (name : String) : Except PyError (List MetricResult) :=
  if name = "bin_f1" then
    match parseFlags (predictions.map pySplit).flatten with
    | .error e => .error e
    | .ok binary_predictions =>
      match parseFlags (groundtruths.map pySplit).flatten with
      | .error e => .error e
      | .ok binary_labels =>
        let f1 := (binary_f1 binary_predictions binary_labels).1
        .ok [("F1", formatFixed (100 * f1) 2, f1, true)]
  else if name = "word_acc" then
    let acc :=
      accuracy (predictions.map pySplit).flatten (groundtruths.map pySplit).flatten
    .ok [("Word accuracy", formatFixed (acc * 100) 2, acc, true)]
  else if name = "seq_acc" then
    let acc := accuracy predictions groundtruths
    .ok [("Sequence accuracy", formatFixed (acc * 100) 2, acc, true)]
  else if name = "mned" then
    let mned := mean_normalized_sequence_edit_distance predictions groundtruths
    .ok [("MNED", formatFixed mned 4, mned, false)]
  else if name = "sec_f1" then
    .ok ([false, true].map (fun seq_avg =>
      let f1 := (spelling_correction_f1 corrupted predictions groundtruths
        seq_avg).1
      (f1RowName seq_avg, formatFixed (f1 * 100) 2, f1, true)))
  else if name = "wsc_f1" then
    .ok ([false, true].map (fun seq_avg =>
      let f1 := (whitespace_correction_f1 corrupted predictions groundtruths
        seq_avg).1
      (f1RowName seq_avg, formatFixed (f1 * 100) 2, f1, true)))
  else .error (.runtimeError ("unknown metric " ++ name))

/-- The metric loop of evaluate.py (lines 94–167): process the names in
order, appending each name's rows to the output. -/
def forEachMetric (corrupted predictions groundtruths : List String) :
    List String → Except PyError (List MetricResult)
  | [] => .ok []
  | name :: rest =>
    match metricRows corrupted predictions groundtruths name with
    | .error e => .error e
    | .ok rows =>
      match forEachMetric corrupted predictions groundtruths rest with
      | .error e => .error e
      | .ok more => .ok (rows ++ more)

/-- `sorted(metric_names)` for the set of requested metric names
(represented by a list in iteration order): the distinct names in ascending
code-point order. -/
def sortedMetricNames (metric_names : List String) : List String :=
  List.insertionSort strLe metric_names.dedup

/-- `evaluate` (evaluate.py, lines 62–167): load the ground-truth,
prediction and corrupted files, resolve the lowercase policy, check that all
four sequences have the same length, lowercase the flagged prediction lines,
then compute the requested metrics in sorted name order. -/
def evaluate (fs : String → Option (List String))
    (corrupted_file groundtruth_file predicted_file : String)
    (metric_names : List String) (lowercase : LowercaseArg) :
    Except PyError (List MetricResult) :=
  match load_text_file fs groundtruth_file with
  | .error e => .error e
  | .ok groundtruths =>
  match load_text_file fs predicted_file with
  | .error e => .error e
  | .ok predictions =>
  match load_text_file fs corrupted_file with
  | .error e => .error e
  | .ok corrupted =>
  match resolveLowercase fs lowercase predictions with
  | .error e => .error e
  | .ok lowercase_lines =>
  if predictions.length = groundtruths.length ∧
      groundtruths.length = corrupted.length ∧
      corrupted.length = lowercase_lines.length then
    forEachMetric corrupted (applyLowercase predictions lowercase_lines)
      groundtruths (sortedMetricNames metric_names)
  else .error (.assertionError lengthMismatchMsg)

/-! ## `run` (evaluate.py, lines 170–258) -/

/-- The parsed command-line arguments. `parse_args` (evaluate.py, lines
10–59) defines exactly the attributes `benchmark`, `files`, `dir`, `sort`,
`lowercase` and `lowercase_file` on the returned namespace. -/
structure Args where
  benchmark : String
  files : Option (List String)
  dir : Option String
  sort : Option String
  lowercase : Bool
  lowercase_file : Option String

/-- A dynamically typed Python value, for attribute lookup on the argument
namespace. -/
inductive PyVal where
  | str (s : String)
  | bool (b : Bool)
  | pyNone
  | strList (l : List String)
deriving DecidableEq

/-- Python attribute lookup on the namespace `parse_args` returns: the six
attributes defined by `parse_args` resolve to their values; any other
attribute raises `AttributeError`. -/
def Args.getattr (a : Args) (attr : String) : Except PyError PyVal :=
  if attr = "benchmark" then .ok (.str a.benchmark)
  else if attr = "files" then
    .ok (match a.files with | some l => .strList l | none => .pyNone)
  else if attr = "dir" then
    .ok (match a.dir with | some d => .str d | none => .pyNone)
  else if attr = "sort" then
    .ok (match a.sort with | some s => .str s | none => .pyNone)
  else if attr = "lowercase" then .ok (.bool a.lowercase)
  else if attr = "lowercase_file" then
    .ok (match a.lowercase_file with | some s => .str s | none => .pyNone)
  else .error (.attributeError attr)

/-- The expression `args.lowercase and args.benchmark_type == "sec"` of
evaluate.py line 227, with Python short-circuit semantics: if
`args.lowercase` is falsy the right operand is never evaluated; otherwise
the attribute `benchmark_type` is looked up on the namespace (where
`parse_args` never defines it). -/
def lowercaseArg (args : Args) : Except PyError Bool :=
  if args.lowercase then
    match args.getattr "benchmark_type" with
    | .error e => .error e
    | .ok (.str s) => .ok (s = "sec")
    | .ok _ => .ok false
  else .ok false

/-- The external collaborators `run` consults besides the file contents:
directory listing, path normalization and the existence check for the
default predictions directory. -/
structure Env where
  fs : String → Option (List String)
  listdir : String → List String
  abspath : String → String
  isPredDir : String → Bool

/-- `os.path.abspath(args.benchmark).rstrip("/").split("/")` (evaluate.py,
line 171). -/
def benchmarkSplit (env : Env) (args : Args) : List String :=
  (splitSep '/' (rstripSlash (env.abspath args.benchmark)).data).map
    String.mk

/-- `split[-2]`: the benchmark type, the parent directory name. -/
def benchmarkTypeOf (env : Env) (args : Args) : String :=
  (benchmarkSplit env args).getD ((benchmarkSplit env args).length - 2) ""

/-- `split[-1]`: the benchmark name, the directory's own name. -/
def benchmarkNameOf (env : Env) (args : Args) : String :=
  (benchmarkSplit env args).getLastD ""

/-- The error message for an unknown benchmark type (evaluate.py, lines
193–196; the typo is the source's). -/
def unknownTypeMsg (benchmark_type : String) : String :=
  "unknonw benchmark type " ++ benchmark_type ++
    ", make sure your directory structure has the correct format"

/-- The benchmark-type dispatch of evaluate.py, lines 180–196: the task
display name and the metric set for each benchmark type, a fatal error for
any other type. -/
def metricsForType (benchmark_type : String) :
    Except PyError (String × List String) :=
  if benchmark_type = "seds" then
    .ok ("Sequence-level spelling error detection", ["bin_f1", "seq_acc"])
  else if benchmark_type = "sedw" then
    .ok ("Word-level spelling error detection", ["bin_f1", "word_acc"])
  else if benchmark_type = "sec" then
    .ok ("Spelling error correction", ["sec_f1", "mned"])
  else if benchmark_type = "wsc" then
    .ok ("Whitespace correction", ["wsc_f1", "seq_acc"])
  else .error (.runtimeError (unknownTypeMsg benchmark_type))

/-- The prediction-file resolution of evaluate.py, lines 198–212:
`--files` wins, then `--dir`, then the `predictions` subdirectory of the
benchmark directory. -/
def predictionFiles (env : Env) (args : Args) :
    Except PyError (List String) :=
  match args.files with
  | some fl => .ok fl
  | none =>
    match args.dir with
    | some d => .ok ((env.listdir d).map (fun f => joinPath d f))
    | none =>
      let prediction_dir := joinPath args.benchmark "predictions"
      if env.isPredDir prediction_dir then
        .ok ((env.listdir prediction_dir).map
          (fun f => joinPath prediction_dir f))
      else
        .error (.assertionError
          ("expecting a subdirectory \x27predictions\x27 in " ++
            args.benchmark ++
            " if neither --files/-f nor --dir/-d is specified"))

/-- The body of the `try` block of evaluate.py, lines 218–230: evaluate the
prediction files in order; for each one, first build the `lowercase`
argument (the buggy line 227), then call `evaluate`; the first exception
aborts the loop. -/
def evalLoop (fs : String → Option (List String)) (args : Args)
    (in_file gt_file : String) (metric_names : List String) :
    List String → Except PyError (List (String × List MetricResult))
  | [] => .ok []
  | pred_file :: rest =>
    match lowercaseArg args with
    | .error e => .error e
    | .ok lc =>
      match evaluate fs in_file gt_file pred_file metric_names (.bool lc) with
      | .error e => .error e
      | .ok evaluation =>
        match evalLoop fs args in_file gt_file metric_names rest with
        | .error e => .error e
        | .ok r => .ok ((basenameNoExt pred_file, evaluation) :: r)

/-- What `run` prints, before table rendering (the renderer is an external
collaborator): the two header rows' contents and the data rows. -/
structure RunOutput where
  task_name : String
  benchmark_name : String
  metric_headers : List String
  data : List (List String)
deriving DecidableEq

/-- The sort key of evaluation `e`: the raw value of its metric at `idx`. -/
def evalSortKey (e : String × List MetricResult) (idx : ℕ) : ℚ :=
  (e.2.getD idx ("", "", 0, true)).2.2.1

/-- `sorted(evaluations, key=..., reverse=...)` of evaluate.py, lines
243–245: stable sort by the chosen metric's raw value, descending when that
metric is higher-is-better. -/
def sortEvals (evals : List (String × List MetricResult)) (idx : ℕ)
    (larger_is_better : Bool) : List (String × List MetricResult) :=
  List.insertionSort
    (fun a b =>
      if larger_is_better then evalSortKey b idx ≤ evalSortKey a idx
      else evalSortKey a idx ≤ evalSortKey b idx)
    evals

/-- The data rows of the output table (evaluate.py, lines 246–249): one row
per evaluation, the prediction name followed by the formatted values. -/
def tableData (evals : List (String × List MetricResult)) :
    List (List String) :=
  evals.map (fun e => e.1 :: e.2.map (fun r => r.2.1))

/-- `run` (evaluate.py, lines 170–258): derive the benchmark type and name
from the benchmark path, select the metric set, resolve the prediction
files, evaluate them all inside one `try` block (wrapping any failure into
a `RuntimeError`), optionally sort, and emit the table contents. -/
def run (env : Env) (args : Args) : Except PyError RunOutput :=
  if (benchmarkSplit env args).length < 2 then
    .error (.runtimeError
      "expected the benchmark directory to have at least one parent directory specifying the task")
  else
  match metricsForType (benchmarkTypeOf env args) with
  | .error e => .error e
  | .ok tm =>
  match predictionFiles env args with
  | .error e => .error e
  | .ok predictions =>
  if predictions.length = 0 then
    .error (.assertionError "need to have at least one prediction file")
  else
  let in_file := joinPath args.benchmark "corrupt.txt"
  let gt_file := joinPath args.benchmark "correct.txt"
  match evalLoop env.fs args in_file gt_file tm.2 predictions with
  | .error e =>
    .error (.runtimeError
      ("encountered exception during evaluation: \x27" ++ errStr e ++
        "\x27.\n"))
  | .ok evaluations =>
  match evaluations with
  | [] => .error (.runtimeError "list index out of range")
  | e0 :: _ =>
    let metric_headers := e0.2.map (fun r => r.1)
    match args.sort with
    | none =>
      .ok ⟨tm.1, benchmarkNameOf env args, metric_headers,
        tableData evaluations⟩
    | some srt =>
      if srt ∈ metric_headers then
        let sort_idx := metric_headers.indexOf srt
        let larger := (e0.2.getD sort_idx ("", "", 0, true)).2.2.2
        .ok ⟨tm.1, benchmarkNameOf env args, metric_headers,
          tableData (sortEvals evaluations sort_idx larger)⟩
      else
        .error (.assertionError
          ("sort must be a metric name, but got " ++ srt))

/-! ## Properties of the string order -/

theorem char_eq_of_toNat_eq {a b : Char} (h : a.toNat = b.toNat) : a = b := by
  have := congrArg Char.ofNat h
  simpa using this

theorem string_eq_of_data_eq {a b : String} (h : a.data = b.data) : a = b := by
  cases a
  cases b
  exact congrArg String.mk h

theorem listCharLeb_total : ∀ as bs : List Char,
    listCharLeb as bs = true ∨ listCharLeb bs as = true := by
  intro as
  induction as with
  | nil => intro bs; left; cases bs <;> rfl
  | cons a as ih =>
    intro bs
    cases bs with
    | nil => right; rfl
    | cons b bs =>
      by_cases h1 : a.toNat < b.toNat
      · left; simp [listCharLeb, h1]
      · by_cases h2 : b.toNat < a.toNat
        · right; simp [listCharLeb, h1, h2]
        · rcases ih bs with h | h
          · left; simp [listCharLeb, h1, h2, h]
          · right; simp [listCharLeb, h1, h2, h]

theorem listCharLeb_cons {a b : Char} {as bs : List Char} :
    listCharLeb (a :: as) (b :: bs) = true ↔
    (a.toNat < b.toNat ∨ (a.toNat = b.toNat ∧ listCharLeb as bs = true)) := by
  simp only [listCharLeb]
  by_cases h1 : a.toNat < b.toNat
  · simp [h1]
  · by_cases h2 : b.toNat < a.toNat
    · simp [h1, h2]
      omega
    · have h3 : a.toNat = b.toNat := by omega
      simp [h1, h2, h3]

theorem listCharLeb_trans : ∀ as bs cs : List Char,
    listCharLeb as bs = true → listCharLeb bs cs = true →
    listCharLeb as cs = true := by
  intro as
  induction as with
  | nil => intro bs cs _ _; cases cs <;> rfl
  | cons a as ih =>
    intro bs cs hab hbc
    cases bs with
    | nil => simp [listCharLeb] at hab
    | cons b bs =>
      cases cs with
      | nil => simp [listCharLeb] at hbc
      | cons c cs =>
        rw [listCharLeb_cons] at hab hbc ⊢
        rcases hab with h | ⟨he1, h1⟩
        · rcases hbc with h2 | ⟨he2, _⟩
          · left; omega
          · left; omega
        · rcases hbc with h2 | ⟨he2, h3⟩
          · left; omega
          · right
            exact ⟨by omega, ih bs cs h1 h3⟩

theorem listCharLeb_antisymm : ∀ as bs : List Char,
    listCharLeb as bs = true → listCharLeb bs as = true → as = bs := by
  intro as
  induction as with
  | nil =>
    intro bs _ hba
    cases bs with
    | nil => rfl
    | cons b bs => simp [listCharLeb] at hba
  | cons a as ih =>
    intro bs hab hba
    cases bs with
    | nil => simp [listCharLeb] at hab
    | cons b bs =>
      simp only [listCharLeb] at hab hba
      by_cases h1 : a.toNat < b.toNat
      · have hba2 : ¬ b.toNat < a.toNat := by omega
        simp [h1, hba2] at hab hba
      · by_cases h2 : b.toNat < a.toNat
        · simp [h1, h2] at hab
        · have : a = b := char_eq_of_toNat_eq (by omega)
          subst this
          simp [h1, h2] at hab hba
          rw [ih bs hab hba]

instance : IsTotal String strLe :=
  ⟨fun a b => listCharLeb_total a.data b.data⟩

instance : IsTrans String strLe :=
  ⟨fun a b c => listCharLeb_trans a.data b.data c.data⟩

instance : IsAntisymm String strLe :=
  ⟨fun a b hab hba =>
    string_eq_of_data_eq (listCharLeb_antisymm a.data b.data hab hba)⟩

/-! ## Structural lemmas -/

theorem load_ok_iff {fs : String → Option (List String)} {path : String}
    {l : List String} : load_text_file fs path = .ok l ↔ fs path = some l := by
  unfold load_text_file
  cases h : fs path <;> simp

theorem sortedMetricNames_sorted (ns : List String) :
    List.Sorted strLe (sortedMetricNames ns) :=
  List.sorted_insertionSort strLe ns.dedup

theorem mem_sortedMetricNames {n : String} {ns : List String} :
    n ∈ sortedMetricNames ns ↔ n ∈ ns :=
  ((List.perm_insertionSort strLe ns.dedup).mem_iff).trans List.mem_dedup

theorem sortedMetricNames_eq_of_toFinset_eq {ns1 ns2 : List String}
    (h : ns1.toFinset = ns2.toFinset) :
    sortedMetricNames ns1 = sortedMetricNames ns2 := by
  have hperm : ns1.dedup.Perm ns2.dedup := by
    apply List.perm_of_nodup_nodup_toFinset_eq (List.nodup_dedup ns1)
      (List.nodup_dedup ns2)
    apply Finset.ext
    intro a
    simp only [List.mem_toFinset, List.mem_dedup]
    constructor
    · intro ha
      have := Finset.ext_iff.mp h a
      simp only [List.mem_toFinset] at this
      exact this.mp ha
    · intro ha
      have := Finset.ext_iff.mp h a
      simp only [List.mem_toFinset] at this
      exact this.mpr ha
  exact List.eq_of_perm_of_sorted
    (((List.perm_insertionSort strLe ns1.dedup).trans hperm).trans
      (List.perm_insertionSort strLe ns2.dedup).symm)
    (sortedMetricNames_sorted ns1) (sortedMetricNames_sorted ns2)

theorem forEachMetric_ok_decomp {c p g : List String} :
    ∀ {ns : List String} {rows : List MetricResult},
    forEachMetric c p g ns = .ok rows →
    ∃ blocks, List.Forall₂ (fun n b => metricRows c p g n = .ok b) ns blocks ∧
      rows = blocks.flatten := by
  intro ns
  induction ns with
  | nil =>
    intro rows h
    simp only [forEachMetric] at h
    cases h
    exact ⟨[], .nil, rfl⟩
  | cons name rest ih =>
    intro rows h
    simp only [forEachMetric] at h
    cases hm : metricRows c p g name with
    | error e => rw [hm] at h; cases h
    | ok rows1 =>
      rw [hm] at h
      cases hr : forEachMetric c p g rest with
      | error e => rw [hr] at h; cases h
      | ok rows2 =>
        rw [hr] at h
        cases h
        obtain ⟨blocks, hf, hrows⟩ := ih hr
        exact ⟨rows1 :: blocks, .cons hm hf, by simp [hrows]⟩

theorem forall2_flatten_mem {R : String → List MetricResult → Prop}
    {ns : List String} {blocks : List (List MetricResult)}
    (hf : List.Forall₂ R ns blocks) {n : String} (hn : n ∈ ns) :
    ∃ b pre post, R n b ∧ blocks.flatten = pre ++ b ++ post := by
  revert hn
  induction hf with
  | nil => intro hn; cases hn
  | cons hR htail ih =>
    rename_i x y xs ys
    intro hn
    rcases List.mem_cons.mp hn with h | h
    · subst h
      exact ⟨y, [], ys.flatten, hR, by simp⟩
    · obtain ⟨b, pre, post, hb, hflat⟩ := ih h
      exact ⟨b, y ++ pre, post, hb, by simp [hflat]⟩

theorem forEachMetric_ok_of_mem {c p g : List String}
    {ns : List String} {rows : List MetricResult} {n : String}
    (h : forEachMetric c p g ns = .ok rows) (hn : n ∈ ns) :
    ∃ b, metricRows c p g n = .ok b := by
  obtain ⟨blocks, hf, _⟩ := forEachMetric_ok_decomp h
  obtain ⟨b, _, _, hb, _⟩ := forall2_flatten_mem hf hn
  exact ⟨b, hb⟩

theorem evaluate_ok_elim {fs : String → Option (List String)}
    {cf gf pf : String} {ns : List String} {lc : LowercaseArg}
    {rows : List MetricResult}
    (h : evaluate fs cf gf pf ns lc = .ok rows) :
    ∃ g p c fl, fs gf = some g ∧ fs pf = some p ∧ fs cf = some c ∧
      resolveLowercase fs lc p = .ok fl ∧
      (p.length = g.length ∧ g.length = c.length ∧
        c.length = fl.length) ∧
      forEachMetric c (applyLowercase p fl) g (sortedMetricNames ns) =
        .ok rows := by
  unfold evaluate at h
  cases hg : load_text_file fs gf with
  | error e => rw [hg] at h; cases h
  | ok g =>
  rw [hg] at h
  cases hp : load_text_file fs pf with
  | error e => rw [hp] at h; cases h
  | ok p =>
  rw [hp] at h
  cases hc : load_text_file fs cf with
  | error e => rw [hc] at h; cases h
  | ok c =>
  rw [hc] at h
  dsimp only at h
  cases hfl : resolveLowercase fs lc p with
  | error e => rw [hfl] at h; cases h
  | ok fl =>
  rw [hfl] at h
  dsimp only at h
  split at h
  · rename_i hlen
    exact ⟨g, p, c, fl, load_ok_iff.mp hg, load_ok_iff.mp hp,
      load_ok_iff.mp hc, hfl, hlen, h⟩
  · cases h

theorem metricRows_unknown {c p g : List String} {n : String}
    (h : n ∉ supportedMetricNames) :
    metricRows c p g n = .error (.runtimeError ("unknown metric " ++ n)) := by
  simp only [supportedMetricNames, List.mem_cons, List.not_mem_nil, or_false,
    not_or] at h
  obtain ⟨h1, h2, h3, h4, h5, h6⟩ := h
  unfold metricRows
  rw [if_neg h1, if_neg h2, if_neg h3, if_neg h4, if_neg h5, if_neg h6]

theorem metricRows_ok_length {c p g : List String} {n : String}
    {b : List MetricResult} (h : metricRows c p g n = .ok b) :
    b.length = if n = "sec_f1" ∨ n = "wsc_f1" then 2 else 1 := by
  unfold metricRows at h
  by_cases h1 : n = "bin_f1"
  · rw [if_pos h1] at h
    cases hp : parseFlags (p.map pySplit).flatten with
    | error e => rw [hp] at h; cases h
    | ok bp =>
      rw [hp] at h
      cases hg2 : parseFlags (g.map pySplit).flatten with
      | error e => rw [hg2] at h; cases h
      | ok bl =>
        rw [hg2] at h
        dsimp only at h
        cases h
        simp [h1]
  · rw [if_neg h1] at h
    by_cases h2 : n = "word_acc"
    · rw [if_pos h2] at h; cases h; simp [h1, h2]
    · rw [if_neg h2] at h
      by_cases h3 : n = "seq_acc"
      · rw [if_pos h3] at h; cases h; simp [h1, h3]
      · rw [if_neg h3] at h
        by_cases h4 : n = "mned"
        · rw [if_pos h4] at h; cases h; simp [h1, h4]
        · rw [if_neg h4] at h
          by_cases h5 : n = "sec_f1"
          · rw [if_pos h5] at h; cases h; simp [h5]
          · rw [if_neg h5] at h
            by_cases h6 : n = "wsc_f1"
            · rw [if_pos h6] at h; cases h; simp [h6]
            · rw [if_neg h6] at h; cases h

theorem metricRows_sec_f1 (c p g : List String) :
    metricRows c p g "sec_f1" =
      .ok [("Micro F1",
             formatFixed ((spelling_correction_f1 c p g false).1 * 100) 2,
             (spelling_correction_f1 c p g false).1, true),
           ("Sequence-averaged F1",
             formatFixed ((spelling_correction_f1 c p g true).1 * 100) 2,
             (spelling_correction_f1 c p g true).1, true)] := by
  rfl

theorem metricRows_wsc_f1 (c p g : List String) :
    metricRows c p g "wsc_f1" =
      .ok [("Micro F1",
             formatFixed ((whitespace_correction_f1 c p g false).1 * 100) 2,
             (whitespace_correction_f1 c p g false).1, true),
           ("Sequence-averaged F1",
             formatFixed ((whitespace_correction_f1 c p g true).1 * 100) 2,
             (whitespace_correction_f1 c p g true).1, true)] := by
  rfl

/-! ## Degenerate-case lemmas for the edit-level metrics -/

theorem alignEditsAux_self {α : Type} [DecidableEq α] :
    ∀ (fuel : ℕ) (y : List α) (pos : ℕ), y.length ≤ fuel →
    alignEditsAux fuel pos y y = (0, []) := by
  intro fuel
  induction fuel with
  | zero =>
    intro y pos hy
    cases y with
    | nil => rfl
    | cons a as => simp at hy
  | succ f ih =>
    intro y pos hy
    cases y with
    | nil => rfl
    | cons a as =>
      simp only [alignEditsAux, if_pos rfl]
      exact ih as (pos + 1) (by simpa using Nat.le_of_succ_le_succ (by simpa using hy))

theorem alignEdits_self {α : Type} [DecidableEq α] (y : List α) :
    alignEdits y y = (0, []) :=
  alignEditsAux_self (y.length + y.length) y 0 (by omega)

theorem editSet_self {α : Type} [DecidableEq α] (y : List α) :
    editSet y y = [] := by
  unfold editSet
  rw [alignEdits_self]
  rfl

theorem tripleCounts_self {α : Type} [DecidableEq α] (y : List α) :
    tripleCounts y y y = (0, 0, 0) := by
  unfold tripleCounts
  rw [editSet_self]
  rfl

theorem countsF1_zero : countsF1 (0, 0, 0) = (0, 0, 0) := by
  unfold countsF1 precisionOf recallOf f1Of
  norm_num

theorem meanQ_single_zero : meanQ [0] = 0 := by
  unfold meanQ
  norm_num

theorem editSetF1_self_single {α : Type} [DecidableEq α] (t : List α)
    (sequence_averaged : Bool) :
    editSetF1 [(t, t, t)] sequence_averaged = (0, 0, 0) := by
  unfold editSetF1
  cases sequence_averaged with
  | false =>
    simp only [if_neg (by simp : ¬ (false = true)), List.map_cons,
      List.map_nil, tripleCounts_self]
    simpa using countsF1_zero
  | true =>
    simp only [if_pos rfl, List.map_cons, List.map_nil, tripleCounts_self,
      countsF1_zero]
    simpa using meanQ_single_zero

theorem spelling_correction_f1_self (x : String) (sequence_averaged : Bool) :
    spelling_correction_f1 [x] [x] [x] sequence_averaged = (0, 0, 0) := by
  unfold spelling_correction_f1
  simpa using editSetF1_self_single (pySplit x) sequence_averaged

theorem whitespace_correction_f1_self (x : String) (sequence_averaged : Bool) :
    whitespace_correction_f1 [x] [x] [x] sequence_averaged = (0, 0, 0) := by
  unfold whitespace_correction_f1
  simpa using editSetF1_self_single x.data sequence_averaged

/-! ## Evaluation helpers for concrete witnesses -/

deriving instance DecidableEq for Except

theorem roundHalfToEven_int (n : ℤ) : roundHalfToEven (n : ℚ) = n := by
  unfold roundHalfToEven
  rw [Int.floor_intCast]
  norm_num

theorem formatFixed_nat (n d : ℕ) (hd : d ≠ 0) :
    formatFixed (n : ℚ) d = toString n ++ "." ++ padLeftZeros "0" d := by
  unfold formatFixed
  have h1 : (n : ℚ) * (10 : ℚ) ^ d = ((n * 10 ^ d : ℕ) : ℚ) := by push_cast; ring
  have h2 : roundHalfToEven ((n : ℚ) * (10 : ℚ) ^ d) = ((n * 10 ^ d : ℕ) : ℤ) := by
    rw [h1]
    have := roundHalfToEven_int ((n * 10 ^ d : ℕ) : ℤ)
    rw [← this]
    norm_num
  dsimp only
  rw [h2]
  have h3 : ¬ ((n * 10 ^ d : ℕ) : ℤ) < 0 := not_lt.mpr (Int.natCast_nonneg _)
  rw [if_neg h3, if_neg hd]
  have h4 : ((n * 10 ^ d : ℕ) : ℤ).natAbs = n * 10 ^ d := Int.natAbs_ofNat _
  rw [h4]
  have h5 : n * 10 ^ d / 10 ^ d = n := Nat.mul_div_cancel n (by positivity)
  have h6 : n * 10 ^ d % 10 ^ d = 0 := Nat.mul_mod_left n _
  rw [h5, h6]
  rfl

/-! ## Claim theorems -/

/-- C8: precision, recall, and F1 values with a zero denominator are defined
as 0 rather than undefined or NaN; for a triple where predicted equals
corrupted equals ground truth, `sec_f1` and `wsc_f1` yield `tp = fp = fn = 0`
and both the Micro and the Sequence-averaged F1 equal 0. -/
theorem zero_denominator_degenerate_f1 :
    (∀ tp fp : ℕ, tp + fp = 0 → precisionOf tp fp = 0) ∧
    (∀ tp fn : ℕ, tp + fn = 0 → recallOf tp fn = 0) ∧
    (∀ p r : ℚ, p + r = 0 → f1Of p r = 0) ∧
    (∀ x : String,
      tripleCounts (pySplit x) (pySplit x) (pySplit x) = (0, 0, 0) ∧
      tripleCounts x.data x.data x.data = (0, 0, 0) ∧
      ∀ b : Bool, spelling_correction_f1 [x] [x] [x] b = (0, 0, 0) ∧
        whitespace_correction_f1 [x] [x] [x] b = (0, 0, 0)) := by
  refine ⟨?_, ?_, ?_, ?_⟩
  · intro tp fp h
    unfold precisionOf
    rw [if_pos h]
  · intro tp fn h
    unfold recallOf
    rw [if_pos h]
  · intro p r h
    unfold f1Of
    rw [if_pos h]
  · intro x
    exact ⟨tripleCounts_self _, tripleCounts_self _,
      fun b => ⟨spelling_correction_f1_self x b,
        whitespace_correction_f1_self x b⟩⟩

theorem zero_denominator_degenerate_f1_witness :
    ((0 : ℕ) + 0 = 0 ∧ precisionOf 0 0 = 0) ∧
    ((0 : ℕ) + 0 = 0 ∧ recallOf 0 0 = 0) ∧
    ((0 : ℚ) + 0 = 0 ∧ f1Of 0 0 = 0) ∧
    spelling_correction_f1 ["x"] ["x"] ["x"] false = (0, 0, 0) ∧
    whitespace_correction_f1 ["x"] ["x"] ["x"] true = (0, 0, 0) :=
  ⟨⟨rfl, zero_denominator_degenerate_f1.1 0 0 rfl⟩,
   ⟨rfl, zero_denominator_degenerate_f1.2.1 0 0 rfl⟩,
   ⟨by norm_num, zero_denominator_degenerate_f1.2.2.1 0 0 (by norm_num)⟩,
   ((zero_denominator_degenerate_f1.2.2.2 "x").2.2 false).1,
   ((zero_denominator_degenerate_f1.2.2.2 "x").2.2 true).2⟩

/-- C1: if the requested metric-name set contains a name outside the six
supported names, `evaluate` fails — the loop iteration for that name raises
the unknown-metric `RuntimeError`, and no call of `evaluate` with such a
request set can return a result. -/
theorem evaluate_unknown_metric_fails
    (fs : String → Option (List String)) (cf gf pf : String)
    (names : List String) (lc : LowercaseArg) (n : String)
    (hn : n ∈ names) (hun : n ∉ supportedMetricNames) :
    (∀ c p g : List String,
      metricRows c p g n = .error (.runtimeError ("unknown metric " ++ n))) ∧
    ∀ rows, evaluate fs cf gf pf names lc ≠ .ok rows := by
  constructor
  · intro c p g
    exact metricRows_unknown hun
  · intro rows h
    obtain ⟨g, p, c, fl, _, _, _, _, _, hfor⟩ := evaluate_ok_elim h
    obtain ⟨b, hb⟩ :=
      forEachMetric_ok_of_mem hfor (mem_sortedMetricNames.mpr hn)
    rw [metricRows_unknown hun] at hb
    cases hb

theorem evaluate_unknown_metric_fails_witness :
    ("bogus" ∈ ["seq_acc", "bogus"] ∧ "bogus" ∉ supportedMetricNames) ∧
    (∀ c p g : List String,
      metricRows c p g "bogus" =
        .error (.runtimeError ("unknown metric " ++ "bogus"))) ∧
    ∀ rows, evaluate (fun _ => some ["x"]) "c.txt" "g.txt" "p.txt"
      ["seq_acc", "bogus"] (.bool false) ≠ .ok rows :=
  ⟨⟨by decide, by decide⟩,
   evaluate_unknown_metric_fails (fun _ => some ["x"]) "c.txt" "g.txt"
     "p.txt" ["seq_acc", "bogus"] (.bool false) "bogus" (by decide)
     (by decide)⟩

/-- C2: if the loaded corrupted, prediction, ground-truth and resolved
lowercase-flag sequences do not all have the same length, `evaluate` fails
with the length-mismatch assertion before computing any metric. -/
theorem evaluate_length_mismatch
    (fs : String → Option (List String)) (cf gf pf : String)
    (names : List String) (lc : LowercaseArg)
    (g p c : List String) (fl : List Bool)
    (hg : fs gf = some g) (hp : fs pf = some p) (hc : fs cf = some c)
    (hfl : resolveLowercase fs lc p = .ok fl)
    (hm : ¬ (p.length = g.length ∧ g.length = c.length ∧
      c.length = fl.length)) :
    evaluate fs cf gf pf names lc =
      .error (.assertionError lengthMismatchMsg) := by
  unfold evaluate
  rw [load_ok_iff.mpr hg, load_ok_iff.mpr hp, load_ok_iff.mpr hc]
  dsimp only
  rw [hfl]
  dsimp only
  rw [if_neg hm]

def c2fs : String → Option (List String) := fun path =>
  if path = "c.txt" then some ["x"]
  else if path = "g.txt" then some ["x"]
  else if path = "p.txt" then some ["x"]
  else if path = "lf.txt" then some ["1", "0"]
  else none

theorem evaluate_length_mismatch_witness :
    (c2fs "g.txt" = some ["x"] ∧ c2fs "p.txt" = some ["x"] ∧
     c2fs "c.txt" = some ["x"] ∧
     resolveLowercase c2fs (.str "lf.txt") ["x"] = .ok [true, false] ∧
     ¬ (([("x" : String)]).length = ([("x" : String)]).length ∧
        ([("x" : String)]).length = ([("x" : String)]).length ∧
        ([("x" : String)]).length = ([true, false]).length)) ∧
    evaluate c2fs "c.txt" "g.txt" "p.txt" ["seq_acc"] (.str "lf.txt") =
      .error (.assertionError lengthMismatchMsg) :=
  ⟨⟨by decide, by decide, by decide, by decide, by decide⟩,
   evaluate_length_mismatch c2fs "c.txt" "g.txt" "p.txt" ["seq_acc"]
     (.str "lf.txt") ["x"] ["x"] ["x"] [true, false] (by decide) (by decide)
     (by decide) (by decide) (by decide)⟩

/-- C9: `evaluate` is deterministic — it is a pure function of the file
contents, the requested metric-name set and the lowercase policy; in
particular its result (including every formatted value string) depends only
on the set of requested names, not on the iteration order of the request
set. -/
theorem evaluate_deterministic
    (fs : String → Option (List String)) (cf gf pf : String)
    (names1 names2 : List String) (lc : LowercaseArg)
    (h : names1.toFinset = names2.toFinset) :
    evaluate fs cf gf pf names1 lc = evaluate fs cf gf pf names2 lc := by
  unfold evaluate
  simp only [sortedMetricNames_eq_of_toFinset_eq h]

theorem evaluate_deterministic_witness :
    ((["mned", "sec_f1"] : List String).toFinset =
      (["sec_f1", "mned", "sec_f1"] : List String).toFinset) ∧
    evaluate (fun _ => some ["x"]) "c.txt" "g.txt" "p.txt"
        ["mned", "sec_f1"] (.bool false) =
      evaluate (fun _ => some ["x"]) "c.txt" "g.txt" "p.txt"
        ["sec_f1", "mned", "sec_f1"] (.bool false) :=
  ⟨by decide,
   evaluate_deterministic (fun _ => some ["x"]) "c.txt" "g.txt" "p.txt"
     ["mned", "sec_f1"] ["sec_f1", "mned", "sec_f1"] (.bool false)
     (by decide)⟩

/-- C4: under any lowercase policy (uniform boolean or per-line 0/1 flag
file), only the prediction lines whose resolved flag is true are case-folded
before metric computation; the corrupted and ground-truth sequences passed
to every metric are exactly the loaded file contents, never
case-normalized. -/
theorem evaluate_lowercase_frame
    (fs : String → Option (List String)) (cf gf pf : String)
    (names : List String) (lc : LowercaseArg)
    (g p c : List String) (fl : List Bool)
    (hg : fs gf = some g) (hp : fs pf = some p) (hc : fs cf = some c)
    (hfl : resolveLowercase fs lc p = .ok fl)
    (hlen : p.length = g.length ∧ g.length = c.length ∧
      c.length = fl.length) :
    evaluate fs cf gf pf names lc =
      forEachMetric c (applyLowercase p fl) g (sortedMetricNames names) ∧
    ∀ (i : ℕ) (_hip : i < p.length) (_hif : i < fl.length)
      (hia : i < (applyLowercase p fl).length),
      (applyLowercase p fl)[i] = if fl[i] then pyLower p[i] else p[i] := by
  constructor
  · unfold evaluate
    rw [load_ok_iff.mpr hg, load_ok_iff.mpr hp, load_ok_iff.mpr hc]
    dsimp only
    rw [hfl]
    dsimp only
    rw [if_pos hlen]
  · intro i _hip _hif hia
    simp [applyLowercase, List.getElem_map, List.getElem_zip]

def c4fs : String → Option (List String) := fun path =>
  if path = "c.txt" then some ["U", "V"]
  else if path = "g.txt" then some ["W", "X"]
  else if path = "p.txt" then some ["A", "B"]
  else if path = "lf.txt" then some ["1", "0"]
  else none

theorem evaluate_lowercase_frame_witness :
    (c4fs "g.txt" = some ["W", "X"] ∧ c4fs "p.txt" = some ["A", "B"] ∧
     c4fs "c.txt" = some ["U", "V"] ∧
     resolveLowercase c4fs (.str "lf.txt") ["A", "B"] =
       .ok [true, false] ∧
     ((["A", "B"] : List String).length = (["W", "X"] : List String).length ∧
      (["W", "X"] : List String).length = (["U", "V"] : List String).length ∧
      (["U", "V"] : List String).length = ([true, false]).length)) ∧
    evaluate c4fs "c.txt" "g.txt" "p.txt" ["seq_acc"] (.str "lf.txt") =
      forEachMetric ["U", "V"] (applyLowercase ["A", "B"] [true, false])
        ["W", "X"] (sortedMetricNames ["seq_acc"]) ∧
    ∀ (i : ℕ) (_hip : i < (["A", "B"] : List String).length)
      (_hif : i < ([true, false]).length)
      (hia : i < (applyLowercase ["A", "B"] [true, false]).length),
      (applyLowercase ["A", "B"] [true, false])[i] =
        if ([true, false])[i] then pyLower (["A", "B"] : List String)[i]
        else (["A", "B"] : List String)[i] :=
  ⟨⟨by decide, by decide, by decide, by decide, by decide⟩,
   evaluate_lowercase_frame c4fs "c.txt" "g.txt" "p.txt" ["seq_acc"]
     (.str "lf.txt") ["W", "X"] ["A", "B"] ["U", "V"] [true, false]
     (by decide) (by decide) (by decide) (by decide) (by decide)⟩

/-- C3: for a successful call the returned list of Metric Results is the
concatenation, over the requested metric names in ascending alphabetical
(code-point) order, of each name's rows — one row per name, or two for
`sec_f1` and `wsc_f1` — independent of the iteration order of the request
set. -/
theorem evaluate_rows_sorted
    (fs : String → Option (List String)) (cf gf pf : String)
    (names : List String) (lc : LowercaseArg) (rows : List MetricResult)
    (h : evaluate fs cf gf pf names lc = .ok rows) :
    List.Sorted strLe (sortedMetricNames names) ∧
    (∀ names2 : List String, names2.toFinset = names.toFinset →
      sortedMetricNames names2 = sortedMetricNames names) ∧
    (∀ n : String, n ∈ sortedMetricNames names ↔ n ∈ names) ∧
    ∃ c p g blocks,
      List.Forall₂ (fun n b => metricRows c p g n = .ok b ∧
          b.length = if n = "sec_f1" ∨ n = "wsc_f1" then 2 else 1)
        (sortedMetricNames names) blocks ∧
      rows = blocks.flatten := by
  refine ⟨sortedMetricNames_sorted names,
    fun names2 h2 => sortedMetricNames_eq_of_toFinset_eq h2,
    fun n => mem_sortedMetricNames, ?_⟩
  obtain ⟨g, p, c, fl, _, _, _, _, _, hfor⟩ := evaluate_ok_elim h
  obtain ⟨blocks, hf, hrows⟩ := forEachMetric_ok_decomp hfor
  exact ⟨c, applyLowercase p fl, g, blocks,
    List.Forall₂.imp (fun n b hb => ⟨hb, metricRows_ok_length hb⟩) hf, hrows⟩

def c3fs : String → Option (List String) := fun _ => some ["x"]

theorem accuracy_single_self : accuracy (["x"] : List String) ["x"] = 1 := by
  have h : accuracy (["x"] : List String) ["x"] = ((1 : ℕ) : ℚ) / ((1 : ℕ) : ℚ) := rfl
  rw [h]
  norm_num

theorem c3_eval :
    evaluate c3fs "c.txt" "g.txt" "p.txt" ["seq_acc"] (.bool false) =
      .ok [("Sequence accuracy", "100.00", 1, true)] := by
  have h1 : evaluate c3fs "c.txt" "g.txt" "p.txt" ["seq_acc"] (.bool false) =
      .ok [("Sequence accuracy",
            formatFixed (accuracy (["x"] : List String) ["x"] * 100) 2,
            accuracy (["x"] : List String) ["x"], true)] := rfl
  rw [h1, accuracy_single_self]
  rw [show ((1 : ℚ) * 100) = ((100 : ℕ) : ℚ) from by norm_num]
  rw [formatFixed_nat 100 2 (by decide)]
  rfl

theorem evaluate_rows_sorted_witness :
    (evaluate c3fs "c.txt" "g.txt" "p.txt" ["seq_acc"] (.bool false) =
      .ok [("Sequence accuracy", "100.00", 1, true)]) ∧
    List.Sorted strLe (sortedMetricNames ["seq_acc"]) ∧
    (∀ n : String, n ∈ sortedMetricNames ["seq_acc"] ↔ n ∈ ["seq_acc"]) ∧
    ∃ c p g blocks,
      List.Forall₂ (fun n b => metricRows c p g n = .ok b ∧
          b.length = if n = "sec_f1" ∨ n = "wsc_f1" then 2 else 1)
        (sortedMetricNames ["seq_acc"]) blocks ∧
      [(("Sequence accuracy" : String), ("100.00" : String), (1 : ℚ), true)] =
        blocks.flatten :=
  have h :=
    evaluate_rows_sorted c3fs "c.txt" "g.txt" "p.txt" ["seq_acc"]
      (.bool false) [("Sequence accuracy", "100.00", 1, true)] c3_eval
  ⟨c3_eval, h.1, h.2.2.1, h.2.2.2⟩

/-- C7: whenever the request set contains `sec_f1` (or `wsc_f1`), the loop
iteration for that name emits exactly two Metric Results, with display names
"Micro F1" and "Sequence-averaged F1" in that order, both marked
higher-is-better; in a successful `evaluate` output these two rows appear
contiguously. -/
theorem evaluate_f1_pair_rows
    (fs : String → Option (List String)) (cf gf pf : String)
    (names : List String) (lc : LowercaseArg) (rows : List MetricResult)
    (h : evaluate fs cf gf pf names lc = .ok rows) :
    (∀ c p g : List String, ∃ s1 v1 s2 v2,
      metricRows c p g "sec_f1" =
        .ok [("Micro F1", s1, v1, true),
             ("Sequence-averaged F1", s2, v2, true)]) ∧
    (∀ c p g : List String, ∃ s1 v1 s2 v2,
      metricRows c p g "wsc_f1" =
        .ok [("Micro F1", s1, v1, true),
             ("Sequence-averaged F1", s2, v2, true)]) ∧
    ("sec_f1" ∈ names → ∃ pre post s1 v1 s2 v2,
      rows = pre ++ [("Micro F1", s1, v1, true),
                     ("Sequence-averaged F1", s2, v2, true)] ++ post) ∧
    ("wsc_f1" ∈ names → ∃ pre post s1 v1 s2 v2,
      rows = pre ++ [("Micro F1", s1, v1, true),
                     ("Sequence-averaged F1", s2, v2, true)] ++ post) := by
  obtain ⟨g, p, c, fl, _, _, _, _, _, hfor⟩ := evaluate_ok_elim h
  obtain ⟨blocks, hf, hrows⟩ := forEachMetric_ok_decomp hfor
  refine ⟨?_, ?_, ?_, ?_⟩
  · intro c p g
    exact ⟨_, _, _, _, metricRows_sec_f1 c p g⟩
  · intro c p g
    exact ⟨_, _, _, _, metricRows_wsc_f1 c p g⟩
  · intro hmem
    obtain ⟨b, pre, post, hb, hflat⟩ :=
      forall2_flatten_mem hf (mem_sortedMetricNames.mpr hmem)
    rw [metricRows_sec_f1] at hb
    cases hb
    exact ⟨pre, post, _, _, _, _, by rw [hrows, hflat]⟩
  · intro hmem
    obtain ⟨b, pre, post, hb, hflat⟩ :=
      forall2_flatten_mem hf (mem_sortedMetricNames.mpr hmem)
    rw [metricRows_wsc_f1] at hb
    cases hb
    exact ⟨pre, post, _, _, _, _, by rw [hrows, hflat]⟩

def c7fs : String → Option (List String) := fun _ => some ["x"]

theorem c7_eval :
    evaluate c7fs "c.txt" "g.txt" "p.txt" ["sec_f1"] (.bool false) =
      .ok [("Micro F1", "0.00", 0, true),
           ("Sequence-averaged F1", "0.00", 0, true)] := by
  have h1 : evaluate c7fs "c.txt" "g.txt" "p.txt" ["sec_f1"] (.bool false) =
      .ok [("Micro F1",
            formatFixed
              ((spelling_correction_f1 ["x"] ["x"] ["x"] false).1 * 100) 2,
            (spelling_correction_f1 ["x"] ["x"] ["x"] false).1, true),
           ("Sequence-averaged F1",
            formatFixed
              ((spelling_correction_f1 ["x"] ["x"] ["x"] true).1 * 100) 2,
            (spelling_correction_f1 ["x"] ["x"] ["x"] true).1, true)] := rfl
  rw [h1, spelling_correction_f1_self, spelling_correction_f1_self]
  rw [show (((0 : ℚ), (0 : ℚ), (0 : ℚ)).1 * 100) = ((0 : ℕ) : ℚ) from by
    norm_num]
  rw [formatFixed_nat 0 2 (by decide)]
  rfl

theorem evaluate_f1_pair_rows_witness :
    (evaluate c7fs "c.txt" "g.txt" "p.txt" ["sec_f1"] (.bool false) =
      .ok [("Micro F1", "0.00", 0, true),
           ("Sequence-averaged F1", "0.00", 0, true)]) ∧
    ("sec_f1" ∈ (["sec_f1"] : List String)) ∧
    (("sec_f1" ∈ (["sec_f1"] : List String)) → ∃ pre post s1 v1 s2 v2,
      ([(("Micro F1" : String), ("0.00" : String), (0 : ℚ), true),
        (("Sequence-averaged F1" : String), ("0.00" : String), (0 : ℚ),
          true)] : List MetricResult) =
        pre ++ [("Micro F1", s1, v1, true),
                ("Sequence-averaged F1", s2, v2, true)] ++ post) :=
  have h :=
    evaluate_f1_pair_rows c7fs "c.txt" "g.txt" "p.txt" ["sec_f1"]
      (.bool false) _ c7_eval
  ⟨c7_eval, by decide, h.2.2.1⟩

/-- C6: the benchmark type selects exactly the metric set
`seds -> {bin_f1, seq_acc}`, `sedw -> {bin_f1, word_acc}`,
`sec -> {sec_f1, mned}`, `wsc -> {wsc_f1, seq_acc}`; any other benchmark
type is a fatal error raised before any evaluation (for every environment,
independent of any file contents). -/
theorem run_benchmark_type_mapping :
    metricsForType "seds" =
      .ok ("Sequence-level spelling error detection",
        ["bin_f1", "seq_acc"]) ∧
    metricsForType "sedw" =
      .ok ("Word-level spelling error detection", ["bin_f1", "word_acc"]) ∧
    metricsForType "sec" =
      .ok ("Spelling error correction", ["sec_f1", "mned"]) ∧
    metricsForType "wsc" =
      .ok ("Whitespace correction", ["wsc_f1", "seq_acc"]) ∧
    (∀ t : String, t ∉ (["seds", "sedw", "sec", "wsc"] : List String) →
      metricsForType t = .error (.runtimeError (unknownTypeMsg t))) ∧
    (∀ (env : Env) (args : Args),
      2 ≤ (benchmarkSplit env args).length →
      benchmarkTypeOf env args ∉
        (["seds", "sedw", "sec", "wsc"] : List String) →
      run env args =
        .error (.runtimeError
          (unknownTypeMsg (benchmarkTypeOf env args)))) := by
  have hunk : ∀ t : String,
      t ∉ (["seds", "sedw", "sec", "wsc"] : List String) →
      metricsForType t = .error (.runtimeError (unknownTypeMsg t)) := by
    intro t ht
    simp only [List.mem_cons, List.not_mem_nil, or_false, not_or] at ht
    obtain ⟨h1, h2, h3, h4⟩ := ht
    unfold metricsForType
    rw [if_neg h1, if_neg h2, if_neg h3, if_neg h4]
  refine ⟨rfl, rfl, rfl, rfl, hunk, ?_⟩
  intro env args hlen htype
  unfold run
  rw [if_neg (by omega), hunk _ htype]

def c6env : Env := ⟨fun _ => none, fun _ => [], fun s => s, fun _ => false⟩

def c6args : Args := ⟨"/x/bogus/b", some ["p.txt"], none, none, false, none⟩

theorem run_benchmark_type_mapping_witness :
    (2 ≤ (benchmarkSplit c6env c6args).length ∧
     benchmarkTypeOf c6env c6args ∉
       (["seds", "sedw", "sec", "wsc"] : List String) ∧
     "bogus" ∉ (["seds", "sedw", "sec", "wsc"] : List String)) ∧
    metricsForType "bogus" =
      .error (.runtimeError (unknownTypeMsg "bogus")) ∧
    run c6env c6args =
      .error (.runtimeError
        (unknownTypeMsg (benchmarkTypeOf c6env c6args))) :=
  ⟨⟨by decide, by decide, by decide⟩,
   run_benchmark_type_mapping.2.2.2.2.1 "bogus" (by decide),
   run_benchmark_type_mapping.2.2.2.2.2 c6env c6args (by decide)
     (by decide)⟩

theorem lowercaseArg_update (args : Args) (v : Option String) :
    lowercaseArg { args with lowercase_file := v } = lowercaseArg args := rfl

theorem benchmarkSplit_update (env : Env) (args : Args) (v : Option String) :
    benchmarkSplit env { args with lowercase_file := v } =
      benchmarkSplit env args := rfl

theorem benchmarkTypeOf_update (env : Env) (args : Args) (v : Option String) :
    benchmarkTypeOf env { args with lowercase_file := v } =
      benchmarkTypeOf env args := rfl

theorem benchmarkNameOf_update (env : Env) (args : Args) (v : Option String) :
    benchmarkNameOf env { args with lowercase_file := v } =
      benchmarkNameOf env args := rfl

theorem predictionFiles_update (env : Env) (args : Args) (v : Option String) :
    predictionFiles env { args with lowercase_file := v } =
      predictionFiles env args := rfl

theorem args_update_benchmark (args : Args) (v : Option String) :
    ({ args with lowercase_file := v } : Args).benchmark = args.benchmark :=
  rfl

theorem args_update_sort (args : Args) (v : Option String) :
    ({ args with lowercase_file := v } : Args).sort = args.sort := rfl

theorem evalLoop_lowercase_file_irrel
    (fs : String → Option (List String)) (args : Args) (v : Option String)
    (in_file gt_file : String) (metric_names : List String) :
    ∀ preds : List String,
      evalLoop fs { args with lowercase_file := v } in_file gt_file
        metric_names preds =
      evalLoop fs args in_file gt_file metric_names preds := by
  intro preds
  induction preds with
  | nil => rfl
  | cons pf rest ih =>
    simp only [evalLoop, lowercaseArg_update, ih]

theorem run_lowercase_file_irrel (env : Env) (args : Args)
    (v : Option String) :
    run env { args with lowercase_file := v } = run env args := by
  unfold run
  simp only [benchmarkSplit_update, benchmarkTypeOf_update,
    benchmarkNameOf_update, predictionFiles_update, args_update_benchmark,
    args_update_sort, evalLoop_lowercase_file_irrel]

/-- C10: when the parsed `--lowercase` flag is true, building the
`lowercase` argument of the first `evaluate` call reads the attribute
`benchmark_type`, which `parse_args` never defines, so the evaluation loop
fails with `AttributeError` on its first iteration before any `evaluate`
call; consequently `run` never applies uniform lowercasing (when the flag is
false the built argument is always `false`), and `run` never reads the
parsed `--lowercase-file` argument (its result is invariant under changing
that attribute), so no per-line lowercase policy is ever passed to
`evaluate` from the CLI. -/
theorem run_lowercase_attribute_bug (args : Args)
    (hlc : args.lowercase = true) :
    lowercaseArg args = .error (.attributeError "benchmark_type") ∧
    (∀ (fs : String → Option (List String)) (in_file gt_file : String)
       (metric_names : List String) (pf : String) (rest : List String),
      evalLoop fs args in_file gt_file metric_names (pf :: rest) =
        .error (.attributeError "benchmark_type")) ∧
    (∀ args2 : Args, args2.lowercase = false →
      lowercaseArg args2 = .ok false) ∧
    (∀ (env : Env) (args3 : Args) (v : Option String),
      run env { args3 with lowercase_file := v } = run env args3) := by
  have h1 : lowercaseArg args = .error (.attributeError "benchmark_type") := by
    unfold lowercaseArg Args.getattr
    rw [if_pos hlc]
    rw [if_neg (by decide : ¬ ("benchmark_type" = "benchmark")),
      if_neg (by decide : ¬ ("benchmark_type" = "files")),
      if_neg (by decide : ¬ ("benchmark_type" = "dir")),
      if_neg (by decide : ¬ ("benchmark_type" = "sort")),
      if_neg (by decide : ¬ ("benchmark_type" = "lowercase")),
      if_neg (by decide : ¬ ("benchmark_type" = "lowercase_file"))]
  refine ⟨h1, ?_, ?_, fun env args3 v => run_lowercase_file_irrel env args3 v⟩
  · intro fs in_file gt_file metric_names pf rest
    simp only [evalLoop, h1]
  · intro args2 h2
    unfold lowercaseArg
    rw [if_neg (by rw [h2]; exact Bool.false_ne_true)]

def c10args : Args := ⟨"/x/sec/b", some ["p.txt"], none, none, true, none⟩

theorem run_lowercase_attribute_bug_witness :
    c10args.lowercase = true ∧
    lowercaseArg c10args = .error (.attributeError "benchmark_type") ∧
    (∀ (fs : String → Option (List String)) (in_file gt_file : String)
       (metric_names : List String) (pf : String) (rest : List String),
      evalLoop fs c10args in_file gt_file metric_names (pf :: rest) =
        .error (.attributeError "benchmark_type")) ∧
    (∀ args2 : Args, args2.lowercase = false →
      lowercaseArg args2 = .ok false) ∧
    (∀ (env : Env) (args3 : Args) (v : Option String),
      run env { args3 with lowercase_file := v } = run env args3) :=
  have h := run_lowercase_attribute_bug c10args rfl
  ⟨rfl, h.1, h.2.1, h.2.2.1, h.2.2.2⟩

/-- C5 (amended): a failure while evaluating one prediction file aborts the
whole reporting run — the first evaluation failure makes the loop and then
`run` fail (with a `RuntimeError` wrapping the original error), so no
sibling prediction-file evaluations are reported. -/
theorem run_failure_aborts_whole_run
    (env : Env) (args : Args) (tm : String × List String)
    (preds : List String) (e : PyError)
    (hsplit : 2 ≤ (benchmarkSplit env args).length)
    (htm : metricsForType (benchmarkTypeOf env args) = .ok tm)
    (hpreds : predictionFiles env args = .ok preds)
    (hne : preds.length ≠ 0)
    (hloop : evalLoop env.fs args (joinPath args.benchmark "corrupt.txt")
      (joinPath args.benchmark "correct.txt") tm.2 preds = .error e) :
    run env args =
      .error (.runtimeError
        ("encountered exception during evaluation: \x27" ++ errStr e ++
          "\x27.\n")) ∧
    ∀ (fs : String → Option (List String)) (args2 : Args)
      (in_file gt_file : String) (metric_names : List String)
      (pf : String) (rest : List String) (lc : Bool) (e2 : PyError),
      lowercaseArg args2 = .ok lc →
      evaluate fs in_file gt_file pf metric_names (.bool lc) = .error e2 →
      evalLoop fs args2 in_file gt_file metric_names (pf :: rest) =
        .error e2 := by
  constructor
  · unfold run
    rw [if_neg (by omega), htm]
    dsimp only
    rw [hpreds]
    dsimp only
    rw [if_neg hne]
    rw [hloop]
  · intro fs args2 in_file gt_file metric_names pf rest lc e2 hlc heval
    simp only [evalLoop, hlc, heval]

def c5fs : String → Option (List String) := fun path =>
  if path = "/bench/sec/mini/corrupt.txt" then some ["x"]
  else if path = "/bench/sec/mini/correct.txt" then some ["x"]
  else if path = "/p/a.txt" then some ["x", "y"]
  else if path = "/p/b.txt" then some ["x"]
  else none

def c5env : Env := ⟨c5fs, fun _ => [], fun s => s, fun _ => false⟩

def c5args : Args :=
  ⟨"/bench/sec/mini", some ["/p/a.txt", "/p/b.txt"], none, none, false,
    none⟩

theorem run_failure_aborts_whole_run_witness :
    (2 ≤ (benchmarkSplit c5env c5args).length ∧
     metricsForType (benchmarkTypeOf c5env c5args) =
       .ok ("Spelling error correction", ["sec_f1", "mned"]) ∧
     predictionFiles c5env c5args = .ok ["/p/a.txt", "/p/b.txt"] ∧
     (["/p/a.txt", "/p/b.txt"] : List String).length ≠ 0 ∧
     evalLoop c5env.fs c5args (joinPath c5args.benchmark "corrupt.txt")
       (joinPath c5args.benchmark "correct.txt") ["sec_f1", "mned"]
       ["/p/a.txt", "/p/b.txt"] =
       .error (.assertionError lengthMismatchMsg)) ∧
    run c5env c5args =
      .error (.runtimeError
        ("encountered exception during evaluation: \x27" ++
          errStr (.assertionError lengthMismatchMsg) ++ "\x27.\n")) :=
  ⟨⟨by decide, by decide, by decide, by decide, by decide⟩,
   (run_failure_aborts_whole_run c5env c5args
     ("Spelling error correction", ["sec_f1", "mned"])
     ["/p/a.txt", "/p/b.txt"] (.assertionError lengthMismatchMsg)
     (by decide) (by decide) (by decide) (by decide) (by decide)).1⟩

theorem mned_single_self :
    mean_normalized_sequence_edit_distance ["x"] ["x"] = 0 := by
  have h : mean_normalized_sequence_edit_distance ["x"] ["x"] =
      meanQ [((0 : ℕ) : ℚ) / ((1 : ℕ) : ℚ)] := rfl
  rw [h, show ((0 : ℕ) : ℚ) / ((1 : ℕ) : ℚ) = 0 from by norm_num,
    meanQ_single_zero]

theorem c5_sibling_eval :
    evaluate c5env.fs "/bench/sec/mini/corrupt.txt"
      "/bench/sec/mini/correct.txt" "/p/b.txt" ["sec_f1", "mned"]
      (.bool false) =
    .ok [("MNED", "0.0000", 0, false), ("Micro F1", "0.00", 0, true),
         ("Sequence-averaged F1", "0.00", 0, true)] := by
  have h1 : evaluate c5env.fs "/bench/sec/mini/corrupt.txt"
      "/bench/sec/mini/correct.txt" "/p/b.txt" ["sec_f1", "mned"]
      (.bool false) =
    .ok [("MNED",
          formatFixed (mean_normalized_sequence_edit_distance ["x"] ["x"]) 4,
          mean_normalized_sequence_edit_distance ["x"] ["x"], false),
         ("Micro F1",
          formatFixed
            ((spelling_correction_f1 ["x"] ["x"] ["x"] false).1 * 100) 2,
          (spelling_correction_f1 ["x"] ["x"] ["x"] false).1, true),
         ("Sequence-averaged F1",
          formatFixed
            ((spelling_correction_f1 ["x"] ["x"] ["x"] true).1 * 100) 2,
          (spelling_correction_f1 ["x"] ["x"] ["x"] true).1, true)] := rfl
  rw [h1, mned_single_self, spelling_correction_f1_self,
    spelling_correction_f1_self]
  simp only [show (((0 : ℚ), (0 : ℚ), (0 : ℚ)).1 : ℚ) = (0 : ℚ) from rfl,
    show ((0 : ℚ) * 100) = (0 : ℚ) from by norm_num]
  rw [show (0 : ℚ) = ((0 : ℕ) : ℚ) from by norm_num]
  rw [formatFixed_nat 0 4 (by decide), formatFixed_nat 0 2 (by decide)]
  rfl

/-- C5 counterexample: in this concrete environment the first prediction
file fails (its line count disagrees), the sibling prediction file on its
own evaluates successfully, and yet `run` returns only the wrapped error —
the sibling's evaluation is aborted, refuting the claim that a failure
aborts only the failing prediction file. -/
theorem run_sibling_abort_counterexample :
    run c5env c5args =
      .error (.runtimeError
        ("encountered exception during evaluation: \x27" ++
          errStr (.assertionError lengthMismatchMsg) ++ "\x27.\n")) ∧
    evaluate c5env.fs "/bench/sec/mini/corrupt.txt"
      "/bench/sec/mini/correct.txt" "/p/b.txt" ["sec_f1", "mned"]
      (.bool false) =
    .ok [("MNED", "0.0000", 0, false), ("Micro F1", "0.00", 0, true),
         ("Sequence-averaged F1", "0.00", 0, true)] :=
  ⟨by decide, c5_sibling_eval⟩
